import Mathlib

/-!
Verification of the post-creation and account flows of the
`Zeecoworld/backend-role` Django backend.

The Python sources are embedded shallowly: every definition below mirrors one
function or model of the repository (the source location is given in its doc
comment).  Python strings are modelled as lists of characters so that every
operation reduces inside the kernel; database tables are lists of rows; a
request handler is a function from the table state and the request data to the
new state together with the HTTP status code.
-/

/-- Python strings, modelled as lists of characters. -/
abbrev Str := List Char

/-- Python `str.strip()`: remove leading and trailing whitespace. -/
def strip (s : Str) : Str :=
  ((s.dropWhile Char.isWhitespace).reverse.dropWhile Char.isWhitespace).reverse

/-- Python truthiness of `s.strip()` negated: `not s.strip()`. -/
def is_blank (s : Str) : Bool := (strip s).isEmpty

namespace PostApp

/-- The data reaching `PostSerializer.validate` after the per-field validators
(post/serializers.py).  The `image` and `video` file fields are modelled by
their presence; `workflow_steps` by its truthiness, the only ways the functions
below inspect them.  `content_type` is `none` when the client did not submit
one. -/
structure PostData where
  content_type : Option Str
  image : Bool
  video : Bool
  title : Str
  content : Str
  workflow_steps : Bool
deriving Repr, DecidableEq

/-- The content types accepted by `PostSerializer.validate_content_type`
(post/serializers.py:151-156). -/
def valid_types : List Str :=
  ["post".data, "image".data, "video".data, "story".data, "workflow".data]

/-- `PostSerializer.auto_detect_content_type` (post/serializers.py:326-368).
The submitted type is kept for story/workflow; a video file forces `video`; an
image file gives `image` when the submitted type is image, post or video; then
workflow steps give `workflow`; otherwise the submitted type (default `post`)
is used.  The two inner fall-through paths reach the final
`user_content_type or 'post'` fallback of the source. -/
def auto_detect_content_type (d : PostData) : Str :=
  let user_content_type := d.content_type.getD "post".data
  if user_content_type = "story".data ∨ user_content_type = "workflow".data then
    user_content_type
  else if d.video then "video".data
  else if d.image then
    if user_content_type = "image".data then "image".data
    else if user_content_type = "post".data ∨ user_content_type = "video".data then "image".data
    else if user_content_type = [] then "post".data else user_content_type
  else if d.workflow_steps then "workflow".data
  else if user_content_type = [] then "post".data else user_content_type

/-- The first error key raised by the content-type specific checks of
`PostSerializer.validate` (post/serializers.py:386-432), keyed on the detected
content type; `none` when validation passes. -/
def validate_error (d : PostData) : Option Str :=
  let detected := auto_detect_content_type d
  if detected = "video".data then
    if ¬ d.video ∧ ¬ d.image then some "video".data else none
  else if detected = "image".data then
    if ¬ d.image then some "image".data
    else if is_blank d.title then some "title".data
    else none
  else if detected = "story".data then
    if is_blank d.title then some "title".data
    else if (strip d.content).length < 100 then some "content".data
    else none
  else if detected = "workflow".data then
    if ¬ d.workflow_steps then some "workflow_steps".data
    else if is_blank d.title then some "title".data
    else none
  else if detected = "post".data then
    if is_blank d.title ∧ is_blank d.content ∧ ¬ d.image ∧ ¬ d.video then
      some "non_field_errors".data
    else none
  else none

/-- `PostSerializer.validate` (post/serializers.py:370-446): store the detected
content type on the data, then raise the first failing content-type check. -/
def validate (d : PostData) : Except Str PostData :=
  match validate_error d with
  | some key => .error key
  | none => .ok { d with content_type := some (auto_detect_content_type d) }

/-- `True` iff `PostSerializer.validate` accepts the data. -/
def passes (d : PostData) : Bool :=
  match validate d with
  | .ok _ => true
  | .error _ => false

/-- The content-type precedence exactly as the specification claim words it:
story/workflow kept; else video file gives `video`; else an image file with
submitted type image/post/video gives `image`; else workflow steps give
`workflow`; else the submitted type (default `post`). -/
def content_type_precedence_spec (d : PostData) : Str :=
  let submitted := d.content_type.getD "post".data
  if submitted = "story".data ∨ submitted = "workflow".data then submitted
  else if d.video then "video".data
  else if d.image ∧ (submitted = "image".data ∨ submitted = "post".data ∨
      submitted = "video".data) then "image".data
  else if d.workflow_steps then "workflow".data
  else submitted

/-- The field requirements per content-type tag, as the specification claim
words them: video needs a video file or a thumbnail image; image needs an image
file and a non-blank title; story needs a non-blank title and 100 characters of
stripped content; workflow needs workflow steps and a non-blank title; a plain
post needs a title, content, image or video. -/
def requirement_met (tag : Str) (d : PostData) : Bool :=
  if tag = "video".data then d.video || d.image
  else if tag = "image".data then d.image && !(is_blank d.title)
  else if tag = "story".data then
    !(is_blank d.title) && decide (100 ≤ (strip d.content).length)
  else if tag = "workflow".data then d.workflow_steps && !(is_blank d.title)
  else !(is_blank d.title) || !(is_blank d.content) || d.image || d.video


/-- A stored Post row: the authoring user's id and the validated field data
(post/models.py `Post`, restricted to the fields the claims use). -/
structure PostRec where
  author : Nat
  data : PostData
deriving Repr, DecidableEq

/-- `PostListCreateView.create` (post/views.py:57-83) together with
`PostSerializer.create` (post/serializers.py:448-462): when the serializer
validates, exactly one Post authored by the requesting user is appended and
HTTP 201 returned; otherwise HTTP 400 and the table is unchanged. -/
def post_list_create (posts : List PostRec) (uid : Nat) (d : PostData) :
    List PostRec × Nat :=
  match validate d with
  | .ok d2 => (posts ++ [⟨uid, d2⟩], 201)
  | .error _ => (posts, 400)

theorem passes_iff_no_error (d : PostData) :
    passes d = true ↔ validate_error d = none := by
  cases hve : validate_error d <;> simp [passes, validate, hve]

theorem detected_valid (d : PostData)
    (h : ∀ s, d.content_type = some s → s ∈ valid_types) :
    auto_detect_content_type d = "post".data ∨
    auto_detect_content_type d = "image".data ∨
    auto_detect_content_type d = "video".data ∨
    auto_detect_content_type d = "story".data ∨
    auto_detect_content_type d = "workflow".data := by
  rcases d with ⟨ct, img, vid, ti, co, ws⟩
  have hct : ct = none ∨ ct = some "post".data ∨ ct = some "image".data ∨
      ct = some "video".data ∨ ct = some "story".data ∨ ct = some "workflow".data := by
    cases ct with
    | none => exact Or.inl rfl
    | some s =>
      have hs := h s rfl
      simp only [valid_types, List.mem_cons, List.not_mem_nil, or_false] at hs
      rcases hs with h1 | h1 | h1 | h1 | h1 <;> simp [h1]
  rcases hct with h1 | h1 | h1 | h1 | h1 | h1 <;> subst h1 <;>
    cases img <;> cases vid <;> cases ws <;>
      simp [auto_detect_content_type]

theorem error_iff_video (d : PostData) (hdet : auto_detect_content_type d = "video".data) :
    validate_error d = none ↔ requirement_met "video".data d = true := by
  simp only [validate_error, requirement_met, hdet]
  cases d.video <;> cases d.image <;> simp

theorem error_iff_image (d : PostData) (hdet : auto_detect_content_type d = "image".data) :
    validate_error d = none ↔ requirement_met "image".data d = true := by
  simp only [validate_error, requirement_met, hdet]
  cases hbt : is_blank d.title <;> cases d.image <;> simp [hbt]

theorem error_iff_story (d : PostData) (hdet : auto_detect_content_type d = "story".data) :
    validate_error d = none ↔ requirement_met "story".data d = true := by
  simp only [validate_error, requirement_met, hdet]
  cases hbt : is_blank d.title <;>
    by_cases hl : (strip d.content).length < 100 <;>
      simp [hbt, hl, Nat.not_lt]
  · omega

theorem error_iff_workflow (d : PostData) (hdet : auto_detect_content_type d = "workflow".data) :
    validate_error d = none ↔ requirement_met "workflow".data d = true := by
  simp only [validate_error, requirement_met, hdet]
  cases hbt : is_blank d.title <;> cases d.workflow_steps <;> simp [hbt]

theorem error_iff_post (d : PostData) (hdet : auto_detect_content_type d = "post".data) :
    validate_error d = none ↔ requirement_met "post".data d = true := by
  simp only [validate_error, requirement_met, hdet]
  cases hbt : is_blank d.title <;> cases hbc : is_blank d.content <;>
    cases d.image <;> cases d.video <;> simp [hbt, hbc]

/-- C1: for every post-creation request whose submitted content type passed
field validation (it is absent or one of the five valid tags), the content
type stored on the created post follows the claimed precedence: story/workflow
kept, else video file forces video, else image file with submitted type
image/post/video gives image, else workflow steps give workflow, else the
submitted type (default post). -/
theorem auto_detect_content_type_follows_claimed_precedence (d : PostData)
    (h : ∀ s, d.content_type = some s → s ∈ valid_types) :
    auto_detect_content_type d = content_type_precedence_spec d := by
  rcases d with ⟨ct, img, vid, ti, co, ws⟩
  have hct : ct = none ∨ ct = some "post".data ∨ ct = some "image".data ∨
      ct = some "video".data ∨ ct = some "story".data ∨ ct = some "workflow".data := by
    cases ct with
    | none => exact Or.inl rfl
    | some s =>
      have hs := h s rfl
      simp only [valid_types, List.mem_cons, List.not_mem_nil, or_false] at hs
      rcases hs with h1 | h1 | h1 | h1 | h1 <;> simp [h1]
  rcases hct with h1 | h1 | h1 | h1 | h1 | h1 <;> subst h1 <;>
    cases img <;> cases vid <;> cases ws <;>
      simp [auto_detect_content_type, content_type_precedence_spec]

/-- Witness for C1 at a concrete request: submitted type video with an image
attached is stored as an image post, as the precedence dictates. -/
theorem auto_detect_content_type_follows_claimed_precedence_witness :
    auto_detect_content_type ⟨some "video".data, true, false, [], [], false⟩ =
      content_type_precedence_spec ⟨some "video".data, true, false, [], [], false⟩ :=
  auto_detect_content_type_follows_claimed_precedence _
    (by intro s hs; injection hs with h2; rw [← h2]; decide)

/-- C2 as stated is false: with submitted tag video, an attached image, no
video file and a blank title, the submitted tag's claimed requirement (a video
file or a thumbnail image) is met, yet validation fails, because the checks
are keyed to the auto-detected type (image), which demands a title. -/
theorem validate_not_keyed_to_submitted_tag :
    ¬ (∀ d : PostData,
        passes d = true ↔
          requirement_met (d.content_type.getD "post".data) d = true) := by
  intro h
  have h2 := (h ⟨some "video".data, true, false, [], [], false⟩).mpr (by decide)
  exact absurd h2 (by decide)

/-- C2 amended: for every creation request whose submitted content type passed
field validation, `PostSerializer.validate` succeeds exactly when the
requirement of the auto-detected content type is met: video needs a video file
or a thumbnail image; image needs an image file and a non-blank title; story
needs a non-blank title and 100 characters of content; workflow needs workflow
steps and a non-blank title; a plain post needs a title, content, image or
video. -/
theorem validate_iff_detected_requirement (d : PostData)
    (h : ∀ s, d.content_type = some s → s ∈ valid_types) :
    passes d = true ↔ requirement_met (auto_detect_content_type d) d = true := by
  rw [passes_iff_no_error]
  rcases detected_valid d h with h1 | h1 | h1 | h1 | h1
  · rw [h1]; exact error_iff_post d h1
  · rw [h1]; exact error_iff_image d h1
  · rw [h1]; exact error_iff_video d h1
  · rw [h1]; exact error_iff_story d h1
  · rw [h1]; exact error_iff_workflow d h1

/-- Witness for the amended C2 at a concrete request. -/
theorem validate_iff_detected_requirement_witness :
    passes ⟨some "image".data, true, false, "t".data, [], false⟩ = true ↔
      requirement_met
        (auto_detect_content_type ⟨some "image".data, true, false, "t".data, [], false⟩)
        ⟨some "image".data, true, false, "t".data, [], false⟩ = true :=
  validate_iff_detected_requirement _
    (by intro s hs; injection hs with h2; rw [← h2]; decide)

/-- C3: a successful creation request stores exactly one new Post, authored by
the authenticated requesting user, and returns HTTP 201; a rejected one
returns HTTP 400 and stores nothing; in particular a plain post request with
blank title and content and no media is rejected with HTTP 400 and creates no
post. -/
theorem post_list_create_author_and_blank_rejected
    (posts : List PostRec) (uid : Nat) (d : PostData) :
    ((post_list_create posts uid d).2 = 201 →
      (post_list_create posts uid d).1 =
        posts ++ [⟨uid, { d with content_type := some (auto_detect_content_type d) }⟩]) ∧
    ((post_list_create posts uid d).2 ≠ 201 →
      (post_list_create posts uid d).2 = 400 ∧ (post_list_create posts uid d).1 = posts) ∧
    post_list_create posts uid ⟨some "post".data, false, false, [], [], false⟩ =
      (posts, 400) := by
  refine ⟨?_, ?_, ?_⟩
  · intro h2
    cases hv : validate d with
    | ok d2 =>
      have hshape : d2 = { d with content_type := some (auto_detect_content_type d) } := by
        unfold validate at hv
        cases hve : validate_error d with
        | some k => rw [hve] at hv; cases hv
        | none => rw [hve] at hv; injection hv with h3; exact h3.symm
      simp [post_list_create, hv, hshape]
    | error e => simp [post_list_create, hv] at h2
  · intro h2
    cases hv : validate d with
    | ok d2 => simp [post_list_create, hv] at h2
    | error e => simp [post_list_create, hv]
  · have hv : validate_error ⟨some "post".data, false, false, [], [], false⟩ =
        some "non_field_errors".data := by decide
    simp [post_list_create, validate, hv]

/-- Witness for C3: a concrete valid request appends one post with the
requesting user as author. -/
theorem post_list_create_author_and_blank_rejected_witness :
    (post_list_create [] 7 ⟨none, false, false, "hello".data, [], false⟩).1 =
      [] ++ [⟨7, { content_type := some "post".data, image := false, video := false,
                   title := "hello".data, content := [], workflow_steps := false }⟩] :=
  (post_list_create_author_and_blank_rejected [] 7 _).1 (by decide)

/-- A Like row (post/models.py:194-206); `(user, post)` is unique together. -/
structure LikeRec where
  user : Nat
  post : Nat
deriving Repr, DecidableEq

/-- The `get_or_create` lookup predicate of `LikeView.post`: the row for the
requesting user and the addressed post. -/
def like_match (uid pid : Nat) (l : LikeRec) : Bool :=
  l.user == uid && l.post == pid

/-- `LikeView.post` (post/views.py:128-147): `get_or_create` on (user, post);
if the row already existed it is deleted and "unliked" answered, else the
created row is kept and "liked" answered. -/
def like_view (likes : List LikeRec) (uid pid : Nat) : List LikeRec × Str :=
  match likes.find? (like_match uid pid) with
  | some l => (likes.eraseP (fun x => x == l), "unliked".data)
  | none => (likes ++ [⟨uid, pid⟩], "liked".data)

/-- Number of Like rows for a (user, post) pair. -/
def likes_count (likes : List LikeRec) (uid pid : Nat) : Nat :=
  (likes.filter (like_match uid pid)).length

theorem like_match_iff (uid pid : Nat) (l : LikeRec) :
    like_match uid pid l = true ↔ l = ⟨uid, pid⟩ := by
  cases l
  simp [like_match]

theorem find?_append_of_none {α : Type} (l₁ l₂ : List α) (p : α → Bool)
    (h : l₁.find? p = none) : (l₁ ++ l₂).find? p = l₂.find? p := by
  induction l₁ with
  | nil => rfl
  | cons a as ih =>
    cases hpa : p a
    · simp only [List.cons_append, List.find?_cons, hpa] at h ⊢
      exact ih h
    · rw [List.find?_cons, hpa] at h
      cases h

theorem likes_count_append (l₁ l₂ : List LikeRec) (uid pid : Nat) :
    likes_count (l₁ ++ l₂) uid pid = likes_count l₁ uid pid + likes_count l₂ uid pid := by
  simp [likes_count, List.filter_append]

theorem likes_count_zero_iff (likes : List LikeRec) (uid pid : Nat) :
    likes_count likes uid pid = 0 ↔ ∀ l ∈ likes, like_match uid pid l = false := by
  simp [likes_count, List.length_eq_zero, List.filter_eq_nil_iff]

theorem likes_count_singleton (uid pid u p : Nat) :
    likes_count [⟨uid, pid⟩] u p = if u = uid ∧ p = pid then 1 else 0 := by
  by_cases h : u = uid ∧ p = pid
  · obtain ⟨rfl, rfl⟩ := h
    simp [likes_count, like_match]
  · rw [if_neg h]
    rw [likes_count_zero_iff]
    intro l hl
    simp only [List.mem_singleton] at hl
    subst hl
    cases hm : like_match u p ⟨uid, pid⟩
    · rfl
    · have heq := (like_match_iff u p ⟨uid, pid⟩).mp hm
      injection heq with h1 h2
      exact absurd ⟨h1.symm, h2.symm⟩ h

/-- C9: on a like table holding at most one row per (user, post) pair, the
like endpoint toggles: with no Like(user, post) row one is created and
"liked" answered; with one present it is deleted and "unliked" answered; the
at-most-one-row invariant is preserved; and two consecutive calls leave every
pair's like count as it originally was. -/
theorem like_view_toggles (likes : List LikeRec) (uid pid : Nat)
    (hinv : ∀ u p, likes_count likes u p ≤ 1) :
    (likes_count likes uid pid = 0 →
      (like_view likes uid pid).2 = "liked".data ∧
      (like_view likes uid pid).1 = likes ++ [⟨uid, pid⟩]) ∧
    (likes_count likes uid pid ≠ 0 →
      (like_view likes uid pid).2 = "unliked".data ∧
      likes_count (like_view likes uid pid).1 uid pid = 0) ∧
    (∀ u p, likes_count (like_view likes uid pid).1 u p ≤ 1) ∧
    (∀ u p, likes_count (like_view (like_view likes uid pid).1 uid pid).1 u p =
      likes_count likes u p) := by
  cases hf : likes.find? (like_match uid pid) with
  | none =>
    have hzero : likes_count likes uid pid = 0 := by
      rw [likes_count_zero_iff]
      intro l hl
      have h2 := List.find?_eq_none.mp hf l hl
      simpa using h2
    have hres : like_view likes uid pid = (likes ++ [⟨uid, pid⟩], "liked".data) := by
      simp [like_view, hf]
    refine ⟨fun _ => by rw [hres]; exact ⟨rfl, rfl⟩, fun hne => absurd hzero hne, ?_, ?_⟩
    · intro u p
      rw [hres, likes_count_append, likes_count_singleton]
      by_cases hup : u = uid ∧ p = pid
      · obtain ⟨rfl, rfl⟩ := hup
        rw [if_pos ⟨rfl, rfl⟩, hzero]
      · rw [if_neg hup]
        have := hinv u p
        omega
    · intro u p
      rw [hres]
      have hx : like_match uid pid ⟨uid, pid⟩ = true := by simp [like_match]
      have hfind2 : (likes ++ [(⟨uid, pid⟩ : LikeRec)]).find? (like_match uid pid) =
          some ⟨uid, pid⟩ := by
        rw [find?_append_of_none _ _ _ hf]
        simp [List.find?, hx]
      have hnol : ∀ b ∈ likes, ¬ ((fun x => x == (⟨uid, pid⟩ : LikeRec)) b = true) := by
        intro b hb hbeq
        have hb2 : b = ⟨uid, pid⟩ := by simpa using hbeq
        subst hb2
        have h2 := List.find?_eq_none.mp hf _ hb
        exact h2 hx
      have herase2 : (likes ++ [(⟨uid, pid⟩ : LikeRec)]).eraseP
          (fun x => x == (⟨uid, pid⟩ : LikeRec)) = likes := by
        rw [List.eraseP_append_right _ hnol]
        simp
      simp only [like_view, hfind2, herase2]
  | some l =>
    have hleq : l = ⟨uid, pid⟩ := (like_match_iff uid pid l).mp (List.find?_some hf)
    subst hleq
    have hmem : (⟨uid, pid⟩ : LikeRec) ∈ likes := List.mem_of_find?_eq_some hf
    obtain ⟨a, l₁, l₂, hl₁, hpa, hdecomp, herase⟩ :=
      List.exists_of_eraseP (p := fun x => x == (⟨uid, pid⟩ : LikeRec)) hmem (by simp)
    have ha : a = ⟨uid, pid⟩ := by simpa using hpa
    subst ha
    have hres : like_view likes uid pid =
        (likes.eraseP (fun x => x == (⟨uid, pid⟩ : LikeRec)), "unliked".data) := by
      simp [like_view, hf]
    have hcnt : ∀ u p, likes_count likes u p =
        likes_count l₁ u p + likes_count [⟨uid, pid⟩] u p + likes_count l₂ u p := by
      intro u p
      conv_lhs => rw [hdecomp]
      rw [show l₁ ++ (⟨uid, pid⟩ : LikeRec) :: l₂ = l₁ ++ ([⟨uid, pid⟩] ++ l₂) by simp]
      rw [likes_count_append, likes_count_append]
      omega
    have herasecnt : ∀ u p,
        likes_count (likes.eraseP (fun x => x == (⟨uid, pid⟩ : LikeRec))) u p =
          likes_count l₁ u p + likes_count l₂ u p := by
      intro u p
      rw [herase, likes_count_append]
    have hone : likes_count likes uid pid =
        likes_count l₁ uid pid + 1 + likes_count l₂ uid pid := by
      rw [hcnt uid pid, likes_count_singleton, if_pos ⟨rfl, rfl⟩]
    have hz12 : likes_count l₁ uid pid = 0 ∧ likes_count l₂ uid pid = 0 := by
      have := hinv uid pid
      omega
    refine ⟨fun hc0 => by omega, fun _ => ⟨by rw [hres], ?_⟩, ?_, ?_⟩
    · rw [hres, herasecnt]
      omega
    · intro u p
      rw [hres, herasecnt u p]
      have h1 := hcnt u p
      have h3 := hinv u p
      omega
    · intro u p
      rw [hres]
      have hzero2 : likes_count
          (likes.eraseP (fun x => x == (⟨uid, pid⟩ : LikeRec))) uid pid = 0 := by
        rw [herasecnt]
        omega
      have hfind2 : (likes.eraseP (fun x => x == (⟨uid, pid⟩ : LikeRec))).find?
          (like_match uid pid) = none := by
        rw [List.find?_eq_none]
        intro x hx hmx
        have := (likes_count_zero_iff _ uid pid).mp hzero2 x hx
        rw [this] at hmx
        cases hmx
      simp only [like_view, hfind2]
      rw [likes_count_append, likes_count_singleton, herasecnt, hcnt u p, likes_count_singleton]
      omega

/-- Witness for C9: liking a post with no prior like creates the row and
answers "liked". -/
theorem like_view_toggles_witness :
    (like_view [] 1 2).2 = "liked".data ∧ (like_view [] 1 2).1 = [] ++ [⟨1, 2⟩] :=
  (like_view_toggles [] 1 2 (fun u p => by simp [likes_count])).1 rfl

end PostApp

/-- A first-match lookup with a unique key returns the known matching element
(`Model.objects.get` on a unique column). -/
theorem find?_eq_of_mem_of_unique {α : Type} {l : List α} {p : α → Bool} {t : α}
    (ht : t ∈ l) (hp : p t = true) (huniq : ∀ x ∈ l, p x = true → x = t) :
    l.find? p = some t := by
  induction l with
  | nil => cases ht
  | cons a as ih =>
    rcases List.mem_cons.mp ht with rfl | hmem
    · simp [List.find?_cons, hp]
    · cases hpa : p a
      · rw [List.find?_cons, hpa]
        exact ih hmem (fun x hx hpx => huniq x (List.mem_cons_of_mem a hx) hpx)
      · rw [List.find?_cons, hpa, huniq a (List.mem_cons_self a as) hpa]

namespace Account

/-- `account.models.User` (account/models.py:8-18), restricted to the fields
the claims use; `google_id` is `none` when the column is null. -/
structure User where
  id : Nat
  username : Str
  email : Str
  first_name : Str
  last_name : Str
  password : Str
  is_email_verified : Bool
  google_id : Option Str
deriving Repr, DecidableEq

/-- `account.models.EmailVerificationToken` (account/models.py:29-42): the
UUID value (modelled as a natural), the owning user and the lifecycle flags;
times are naturals. -/
structure Token where
  token : Nat
  user_id : Nat
  expires_at : Nat
  is_used : Bool
deriving Repr, DecidableEq

/-- The account database: the user table and the verification-token table. -/
structure DB where
  users : List User
  tokens : List Token
deriving Repr, DecidableEq

/-- `EmailVerificationToken.is_expired` (account/models.py:41-42):
`timezone.now() > self.expires_at`. -/
def is_expired (now : Nat) (t : Token) : Bool :=
  decide (t.expires_at < now)

/-- `EmailVerificationView.post` (account/views.py:44-116): look up an unused
token with the submitted UUID; reject expired ones (HTTP 400); else verify the
user and consume the token (both the fresh and the already-verified user get
HTTP 200); when no unused token matches, answer 200 for a used token of an
already-verified user and 400 otherwise.  A broken user foreign key would
raise into the outer handler (HTTP 500). -/
def verify_email (db : DB) (now : Nat) (tok : Nat) : DB × Nat :=
  match db.tokens.find? (fun t => t.token == tok && !t.is_used) with
  | some t =>
    if is_expired now t then (db, 400)
    else
      match db.users.find? (fun u => u.id == t.user_id) with
      | none => (db, 500)
      | some u =>
        let tokens2 := db.tokens.map
          (fun x => if x.token == tok then { x with is_used := true } else x)
        if u.is_email_verified then
          ({ db with tokens := tokens2 }, 200)
        else
          ({ users := db.users.map
              (fun x => if x.id == u.id then { x with is_email_verified := true } else x),
             tokens := tokens2 }, 200)
  | none =>
    match db.tokens.find? (fun t => t.token == tok) with
    | some t2 =>
      match db.users.find? (fun u => u.id == t2.user_id) with
      | none => (db, 500)
      | some u2 => if u2.is_email_verified then (db, 200) else (db, 400)
    | none => (db, 400)

/-- C4: called with a token value that is stored, unused and unexpired, the
verification endpoint returns HTTP 200, the owning user's is_email_verified
flag is true afterwards, and the token is marked used. -/
theorem verify_email_valid_token_verifies (db : DB) (now tok : Nat) (t : Token) (u : User)
    (htok : (db.tokens.map Token.token).Nodup)
    (hids : (db.users.map User.id).Nodup)
    (ht : t ∈ db.tokens) (httok : t.token = tok) (hunused : t.is_used = false)
    (hexp : is_expired now t = false)
    (hu : u ∈ db.users) (huid : u.id = t.user_id) :
    (verify_email db now tok).2 = 200 ∧
    (∀ u2 ∈ (verify_email db now tok).1.users,
      u2.id = t.user_id → u2.is_email_verified = true) ∧
    (∀ t2 ∈ (verify_email db now tok).1.tokens,
      t2.token = tok → t2.is_used = true) := by
  have hfind : db.tokens.find? (fun x => x.token == tok && !x.is_used) = some t := by
    apply find?_eq_of_mem_of_unique ht (by simp [httok, hunused])
    intro x hx hpx
    simp only [Bool.and_eq_true, beq_iff_eq, Bool.not_eq_true'] at hpx
    exact List.inj_on_of_nodup_map htok hx ht (by rw [hpx.1, httok])
  have hufind : db.users.find? (fun x => x.id == t.user_id) = some u := by
    apply find?_eq_of_mem_of_unique hu (by simp [huid])
    intro x hx hpx
    simp only [beq_iff_eq] at hpx
    exact List.inj_on_of_nodup_map hids hx hu (by rw [hpx, huid])
  have htokens : ∀ t2 ∈ db.tokens.map
      (fun x => if x.token == tok then { x with is_used := true } else x),
      t2.token = tok → t2.is_used = true := by
    intro t2 hmem htk
    obtain ⟨x, hx, hfx⟩ := List.mem_map.mp hmem
    by_cases hxt : x.token = tok
    · rw [if_pos (by simp [hxt])] at hfx
      rw [← hfx]
    · rw [if_neg (by simp [hxt])] at hfx
      subst hfx
      exact absurd htk hxt
  by_cases hv : u.is_email_verified = true
  · have hres1 : (verify_email db now tok).2 = 200 := by
      simp [verify_email, hfind, hexp, hufind, hv]
    have hres2 : (verify_email db now tok).1.users = db.users := by
      simp [verify_email, hfind, hexp, hufind, hv]
    have hres3 : (verify_email db now tok).1.tokens = db.tokens.map
        (fun x => if x.token == tok then { x with is_used := true } else x) := by
      simp [verify_email, hfind, hexp, hufind, hv]
    refine ⟨hres1, ?_, ?_⟩
    · intro u2 hmem hid2
      rw [hres2] at hmem
      have he : u2 = u := List.inj_on_of_nodup_map hids hmem hu (by rw [hid2, huid])
      rw [he, hv]
    · intro t2 hmem htk
      rw [hres3] at hmem
      exact htokens t2 hmem htk
  · have hres1 : (verify_email db now tok).2 = 200 := by
      simp [verify_email, hfind, hexp, hufind, hv]
    have hres2 : (verify_email db now tok).1.users = db.users.map
        (fun x => if x.id == u.id then { x with is_email_verified := true } else x) := by
      simp [verify_email, hfind, hexp, hufind, hv]
    have hres3 : (verify_email db now tok).1.tokens = db.tokens.map
        (fun x => if x.token == tok then { x with is_used := true } else x) := by
      simp [verify_email, hfind, hexp, hufind, hv]
    refine ⟨hres1, ?_, ?_⟩
    · intro u2 hmem hid2
      rw [hres2] at hmem
      obtain ⟨x, hx, hfx⟩ := List.mem_map.mp hmem
      by_cases hxu : x.id = u.id
      · rw [if_pos (by simp [hxu])] at hfx
        rw [← hfx]
      · rw [if_neg (by simp [hxu])] at hfx
        subst hfx
        have he : x = u := List.inj_on_of_nodup_map hids hx hu (by rw [hid2, huid])
        exact absurd (congrArg User.id he) hxu
    · intro t2 hmem htk
      rw [hres3] at hmem
      exact htokens t2 hmem htk

/-- C5: when verification fails — the stored token matching the submitted
value is expired, or no unused token matches and no token with that value
belongs to an already-verified user — the endpoint returns HTTP 400 and the
database is unchanged. -/
theorem verify_email_failure_unchanged (db : DB) (now tok : Nat)
    (htok : (db.tokens.map Token.token).Nodup)
    (hint : ∀ t ∈ db.tokens, ∃ u ∈ db.users, u.id = t.user_id)
    (hfail :
      (∃ t ∈ db.tokens, t.token = tok ∧ t.is_used = false ∧ is_expired now t = true) ∨
      ((∀ t ∈ db.tokens, t.token = tok → t.is_used = true) ∧
       (∀ t ∈ db.tokens, t.token = tok →
         ∀ u ∈ db.users, u.id = t.user_id → u.is_email_verified = false))) :
    verify_email db now tok = (db, 400) := by
  rcases hfail with ⟨t, ht, httok, hunused, hexp⟩ | ⟨hused, hnver⟩
  · have hfind : db.tokens.find? (fun x => x.token == tok && !x.is_used) = some t := by
      apply find?_eq_of_mem_of_unique ht (by simp [httok, hunused])
      intro x hx hpx
      simp only [Bool.and_eq_true, beq_iff_eq, Bool.not_eq_true'] at hpx
      exact List.inj_on_of_nodup_map htok hx ht (by rw [hpx.1, httok])
    simp [verify_email, hfind, hexp]
  · have hfind : db.tokens.find? (fun x => x.token == tok && !x.is_used) = none := by
      rw [List.find?_eq_none]
      intro x hx hpx
      simp only [Bool.and_eq_true, beq_iff_eq, Bool.not_eq_true'] at hpx
      have h2 := hused x hx hpx.1
      rw [hpx.2] at h2
      cases h2
    cases hf2 : db.tokens.find? (fun x => x.token == tok) with
    | none => simp [verify_email, hfind, hf2]
    | some t2 =>
      have ht2 : t2 ∈ db.tokens := List.mem_of_find?_eq_some hf2
      have ht2tok : t2.token = tok := by simpa using List.find?_some hf2
      obtain ⟨u0, hu0, hid0⟩ := hint t2 ht2
      cases hfu : db.users.find? (fun x => x.id == t2.user_id) with
      | none =>
        exact absurd (by simp [hid0] : (fun x => x.id == t2.user_id) u0 = true)
          (List.find?_eq_none.mp hfu u0 hu0)
      | some u2 =>
        have hu2 : u2 ∈ db.users := List.mem_of_find?_eq_some hfu
        have hid2 : u2.id = t2.user_id := by simpa using List.find?_some hfu
        have hnv : u2.is_email_verified = false := hnver t2 ht2 ht2tok u2 hu2 hid2
        simp [verify_email, hfind, hf2, hfu, hnv]

/-- Witness for C4 at a concrete database. -/
theorem verify_email_valid_token_verifies_witness :
    (verify_email ⟨[⟨1, "alice".data, "a@x.com".data, [], [], "pw".data, false, none⟩],
        [⟨42, 1, 100, false⟩]⟩ 50 42).2 = 200 :=
  (verify_email_valid_token_verifies _ 50 42 ⟨42, 1, 100, false⟩
    ⟨1, "alice".data, "a@x.com".data, [], [], "pw".data, false, none⟩
    (by decide) (by decide) (by decide) (by decide) (by decide) (by decide)
    (by decide) (by decide)).1

/-- Witness for C5 at a concrete database holding an expired token. -/
theorem verify_email_failure_unchanged_witness :
    verify_email ⟨[⟨1, "alice".data, "a@x.com".data, [], [], "pw".data, false, none⟩],
        [⟨42, 1, 10, false⟩]⟩ 50 42 =
      (⟨[⟨1, "alice".data, "a@x.com".data, [], [], "pw".data, false, none⟩],
        [⟨42, 1, 10, false⟩]⟩, 400) :=
  verify_email_failure_unchanged _ 50 42 (by decide) (by decide)
    (Or.inl (by decide))

/-- The "to" recipient list of the Mailtrap payload built by
`send_verification_email_with_api` (account/utils.py:46-61), entries being
(address, display name): the address is the hard-coded string
"engrisaac1234@gmail.com" even though the in-line source comment reads
"Use actual user email". -/
def verification_email_to (u : User) : List (Str × Str) :=
  [("engrisaac1234@gmail.com".data, u.username)]

/-- C6: code bug — for a user whose address is alice@example.com (any address
other than the hard-coded one), the verification email payload addresses its
recipient with the hard-coded address, not the user's own email, contradicting
the source's own comment. -/
theorem verification_email_to_not_user_email :
    ((verification_email_to
        ⟨1, "alice".data, "alice@example.com".data, [], [], "pw".data, false, none⟩).map
      Prod.fst = ["engrisaac1234@gmail.com".data]) ∧
    (⟨1, "alice".data, "alice@example.com".data, [], [], "pw".data, false,
        none⟩ : User).email ≠ "engrisaac1234@gmail.com".data := by
  exact ⟨rfl, by decide⟩

end Account

namespace Account

/-- Python `email.split('@')[0]`: the prefix before the first '@' (the whole
string when there is none). -/
def local_part (email : Str) : Str := email.takeWhile (fun c => c != '@')

/-- Python `dict.get(key, default)` over an association list. -/
def dict_get (d : List (Str × Str)) (k : Str) (dflt : Str) : Str :=
  match d.find? (fun p => p.1 == k) with
  | some p => p.2
  | none => dflt

/-- The dict key 'email'. -/
def key_email : Str := "email".data

/-- The dict key 'first_name', under which the serializer stores the Google
given_name claim. -/
def key_first_name : Str := "first_name".data

/-- The dict key 'last_name', under which the serializer stores the Google
family_name claim. -/
def key_last_name : Str := "last_name".data

/-- The dict key 'google_id'. -/
def key_google_id : Str := "google_id".data

/-- The dict key 'given_name', which the view reads. -/
def key_given_name : Str := "given_name".data

/-- The dict key 'family_name', which the view reads. -/
def key_family_name : Str := "family_name".data

/-- `GoogleAuthSerializer.validate_token` (account/serializers.py:87-93): the
dict built from the verified Google claims, keyed 'email', 'first_name',
'last_name', 'google_id' (the boolean 'email_verified' entry, never read by
the view, is omitted). -/
def validate_token_payload (email given_name family_name sub : Str) :
    List (Str × Str) :=
  [(key_email, email), (key_first_name, given_name),
   (key_last_name, family_name), (key_google_id, sub)]

theorem payload_email (a b c d : Str) :
    dict_get (validate_token_payload a b c d) key_email [] = a := rfl

theorem payload_given_name (a b c d : Str) :
    dict_get (validate_token_payload a b c d) key_given_name [] = [] := rfl

theorem payload_family_name (a b c d : Str) :
    dict_get (validate_token_payload a b c d) key_family_name [] = [] := rfl

theorem payload_google_id (a b c d : Str) :
    dict_get (validate_token_payload a b c d) key_google_id [] = d := rfl

/-- The unique-username loop of `GoogleAuthView.post` (account/views.py:270-275):
while the candidate is taken, append the counter to the base and increment;
explicit fuel stands in for the unbounded Python while loop. -/
def generate_username (users : List User) (base : Str) :
    Nat → Nat → Str → Option Str
  | 0, _, _ => none
  | fuel + 1, counter, username =>
    if users.any (fun u => u.username == username) then
      generate_username users base fuel (counter + 1) (base ++ (Nat.repr counter).data)
    else
      some username

theorem generate_username_spec (users : List User) (base : Str) :
    ∀ fuel counter username r,
      generate_username users base fuel counter username = some r →
      (∀ u ∈ users, u.username ≠ r) ∧
      (r = username ∨ ∃ k, counter ≤ k ∧ r = base ++ (Nat.repr k).data) := by
  intro fuel
  induction fuel with
  | zero => intro counter username r h; cases h
  | succ n ih =>
    intro counter username r h
    simp only [generate_username] at h
    by_cases hex : users.any (fun u => u.username == username) = true
    · rw [if_pos hex] at h
      obtain ⟨h1, h2⟩ := ih (counter + 1) (base ++ (Nat.repr counter).data) r h
      refine ⟨h1, Or.inr ?_⟩
      rcases h2 with rfl | ⟨k, hk, rfl⟩
      · exact ⟨counter, le_refl _, rfl⟩
      · exact ⟨k, by omega, rfl⟩
    · rw [if_neg hex] at h
      injection h with h3
      subst h3
      refine ⟨?_, Or.inl rfl⟩
      intro u hu heq
      exact hex (List.any_eq_true.mpr ⟨u, hu, by simp [heq]⟩)

/-- The JSON body of `GoogleAuthView.post`'s HTTP 200 response
(account/views.py:294-306): `token_user` is the id the JWT access/refresh pair
is keyed to (`RefreshToken.for_user`), the rest is the returned user dict. -/
structure AuthResponse where
  token_user : Nat
  user_id : Nat
  username : Str
  email : Str
  name : Str
  first_name : Str
  last_name : Str
  is_email_verified : Bool
deriving Repr, DecidableEq

/-- `GoogleAuthView.post` (account/views.py:231-306) over the dict supplied by
`GoogleAuthSerializer.validate_token`.  The view reads keys 'given_name' and
'family_name' with default '' from that dict.  An existing user with the
submitted email gets the Google id linked and is marked verified; otherwise a
user is created with a username made unique by the counter loop (`none` when
the loop's fuel runs out).  The random password is modelled by a fixed string
and the new row's primary key as one past the row count, neither observable in
the claims. -/
def google_auth (users : List User) (g_email g_given g_family g_sub : Str) :
    Option (List User × AuthResponse) :=
  let user_data := validate_token_payload g_email g_given g_family g_sub
  let email := dict_get user_data key_email []
  let given_name := dict_get user_data key_given_name []
  let family_name := dict_get user_data key_family_name []
  let google_id := dict_get user_data key_google_id []
  let username := if email.isEmpty then "user".data else local_part email
  let full_name0 := strip (given_name ++ [' '] ++ family_name)
  let full_name := if full_name0.isEmpty then username else full_name0
  match users.find? (fun u => u.email == email) with
  | some user =>
    let user2 :=
      if user.google_id = none then
        { user with
          google_id := some google_id,
          is_email_verified := true,
          first_name :=
            if user.first_name.isEmpty && !given_name.isEmpty then given_name
            else user.first_name,
          last_name :=
            if user.last_name.isEmpty && !family_name.isEmpty then family_name
            else user.last_name }
      else user
    let users2 := users.map (fun x => if x.id == user.id then user2 else x)
    some (users2, ⟨user2.id, user2.id, user2.username, user2.email, full_name,
                   user2.first_name, user2.last_name, user2.is_email_verified⟩)
  | none =>
    match generate_username users username (users.length + 1) 1 username with
    | none => none
    | some uname =>
      let new_user : User :=
        { id := users.length + 1, username := uname, email := email,
          first_name := given_name, last_name := family_name,
          password := "random-password".data, is_email_verified := true,
          google_id := some google_id }
      some (users ++ [new_user],
            ⟨new_user.id, new_user.id, new_user.username, new_user.email, full_name,
             new_user.first_name, new_user.last_name, new_user.is_email_verified⟩)

/-- C7: for a successful Google-auth request carrying email E and Google
subject G: an existing user with email E and no linked google_id gets
google_id G and is_email_verified true, and the JWT pair is keyed to that
user; with no user under E a new user is appended with email E, google_id G,
is_email_verified true and a username derived from the local part of E made
unique by an increasing numeric counter, and the JWT pair is keyed to the new
user. -/
theorem google_auth_finds_or_creates (users users2 : List User) (resp : AuthResponse)
    (E gn fn G : Str) (hE : E ≠ [])
    (hrun : google_auth users E gn fn G = some (users2, resp)) :
    (∀ u, users.find? (fun x => x.email == E) = some u → u.google_id = none →
      resp.token_user = u.id ∧
      (∃ u2, u2 ∈ users2 ∧ u2.id = u.id ∧ u2.email = u.email ∧
        u2.google_id = some G ∧ u2.is_email_verified = true)) ∧
    (users.find? (fun x => x.email == E) = none →
      ∃ nu, users2 = users ++ [nu] ∧ nu.email = E ∧ nu.google_id = some G ∧
        nu.is_email_verified = true ∧ resp.token_user = nu.id ∧
        (∀ u ∈ users, u.username ≠ nu.username) ∧
        (nu.username = local_part E ∨
         ∃ k, 1 ≤ k ∧ nu.username = local_part E ++ (Nat.repr k).data)) := by
  simp only [google_auth, payload_email, payload_given_name, payload_family_name,
    payload_google_id] at hrun
  have hEne : E.isEmpty = false := by
    cases E with
    | nil => exact absurd rfl hE
    | cons a as => rfl
  rw [hEne] at hrun
  simp only [Bool.false_eq_true, if_false] at hrun
  constructor
  · intro u h1 hg
    rw [h1] at hrun
    dsimp only at hrun
    rw [if_pos hg] at hrun
    injection hrun with hrun2
    injection hrun2 with hu2 hr
    subst hu2
    subst hr
    refine ⟨rfl, ?_⟩
    refine ⟨_, List.mem_map_of_mem _ (List.mem_of_find?_eq_some h1), ?_⟩
    have hcond : (u.id == u.id) = true := by simp
    rw [if_pos hcond]
    exact ⟨rfl, rfl, rfl, rfl⟩
  · intro h2
    rw [h2] at hrun
    dsimp only at hrun
    cases hgen : generate_username users (local_part E) (users.length + 1) 1 (local_part E) with
    | none => rw [hgen] at hrun; cases hrun
    | some uname =>
      rw [hgen] at hrun
      injection hrun with hrun2
      injection hrun2 with hu2 hr
      subst hu2
      subst hr
      obtain ⟨hfresh, hshape⟩ := generate_username_spec users (local_part E) _ 1 _ _ hgen
      exact ⟨_, rfl, rfl, rfl, rfl, rfl, hfresh, hshape⟩

/-- C10 as stated is false: when uniquifying appends a counter, the response
name field (computed from the pre-uniquification base) differs from the
generated username — here the new user is alice1 but the response name is
alice. -/
theorem google_auth_response_name_not_generated_username :
    ¬ (∀ (users users2 : List User) (resp : AuthResponse) (E gn fn G : Str) (nu : User),
        google_auth users E gn fn G = some (users2, resp) →
        users2 = users ++ [nu] →
        resp.name = nu.username) := by
  intro h
  have h2 := h [⟨1, "alice".data, "bob@x.com".data, [], [], "pw".data, true, none⟩]
    ([⟨1, "alice".data, "bob@x.com".data, [], [], "pw".data, true, none⟩] ++
      [⟨2, "alice1".data, "alice@x.com".data, [], [], "random-password".data, true,
        some "g1".data⟩])
    ⟨2, 2, "alice1".data, "alice@x.com".data, "alice".data, [], [], true⟩
    "alice@x.com".data "Ann".data "Smith".data "g1".data
    ⟨2, "alice1".data, "alice@x.com".data, [], [], "random-password".data, true,
      some "g1".data⟩
    (by decide) rfl
  exact absurd h2 (by decide)

/-- C10 amended: every Google-auth request that creates a new local user
creates it with empty first_name and last_name — the view reads keys
given_name/family_name from a dict keyed first_name/last_name, so the claims
carried by the token never arrive — and the response name field equals the
local part of the email (the pre-uniquification username base), while the
response first_name and last_name are empty. -/
theorem google_auth_new_user_blank_names (users users2 : List User)
    (resp : AuthResponse) (E gn fn G : Str) (hE : E ≠ [])
    (hrun : google_auth users E gn fn G = some (users2, resp))
    (h2 : users.find? (fun x => x.email == E) = none) :
    ∀ nu, users2 = users ++ [nu] →
      nu.first_name = [] ∧ nu.last_name = [] ∧
      resp.first_name = [] ∧ resp.last_name = [] ∧ resp.name = local_part E := by
  simp only [google_auth, payload_email, payload_given_name, payload_family_name,
    payload_google_id] at hrun
  have hEne : E.isEmpty = false := by
    cases E with
    | nil => exact absurd rfl hE
    | cons a as => rfl
  rw [hEne] at hrun
  simp only [Bool.false_eq_true, if_false] at hrun
  rw [h2] at hrun
  dsimp only at hrun
  cases hgen : generate_username users (local_part E) (users.length + 1) 1 (local_part E) with
  | none => rw [hgen] at hrun; cases hrun
  | some uname =>
    rw [hgen] at hrun
    injection hrun with hrun2
    injection hrun2 with hu2 hr
    subst hu2
    subst hr
    intro nu heq
    have h3 := List.append_cancel_left heq.symm
    injection h3 with h5
    subst h5
    refine ⟨rfl, rfl, rfl, rfl, ?_⟩
    rw [if_pos (by decide)]

/-- `django.contrib.auth.authenticate` with the default model backend, as
`login_view` invokes it: the user carrying the given username, provided the
stored password matches.  (`User.is_active` on this model is a method, hence
always truthy, so the backend's active check never rejects.) -/
def authenticate (users : List User) (username password : Str) : Option User :=
  match users.find? (fun u => u.username == username) with
  | some u => if u.password == password then some u else none
  | none => none

/-- Result of `login_view`: the HTTP status and, on success, the id of the
user the JWT access/refresh pair is keyed to. -/
structure LoginResult where
  status : Nat
  token_user : Option Nat
deriving Repr, DecidableEq

/-- `login_view` (account/views.py:162-225): missing fields give HTTP 400; an
unknown email gives 401; an unverified email gives 401 before the password is
ever checked; a wrong password gives 401; otherwise JWT tokens keyed to the
user are returned with HTTP 200. -/
def login_view (users : List User) (email password : Str) : LoginResult :=
  if email.isEmpty || password.isEmpty then ⟨400, none⟩
  else
    match users.find? (fun u => u.email == email) with
    | none => ⟨401, none⟩
    | some user =>
      if !user.is_email_verified then ⟨401, none⟩
      else
        match authenticate users user.username password with
        | some _ => ⟨200, some user.id⟩
        | none => ⟨401, none⟩

/-- C8: with both fields supplied, the login endpoint returns JWT tokens iff
a user with the given email exists, is email-verified and has the matching
password; every existing unverified user gets HTTP 401 with no tokens, whatever
the password. -/
theorem login_view_tokens_iff (users : List User) (email password : Str)
    (hemail : email ≠ []) (hpw : password ≠ [])
    (hnames : (users.map User.username).Nodup)
    (hemails : (users.map User.email).Nodup) :
    ((login_view users email password).token_user.isSome = true ↔
      ∃ u ∈ users, u.email = email ∧ u.is_email_verified = true ∧
        u.password = password) ∧
    (∀ u ∈ users, u.email = email → u.is_email_verified = false →
      login_view users email password = ⟨401, none⟩) := by
  have he : email.isEmpty = false := by
    cases email with
    | nil => exact absurd rfl hemail
    | cons a as => rfl
  have hp : password.isEmpty = false := by
    cases password with
    | nil => exact absurd rfl hpw
    | cons a as => rfl
  cases hfe : users.find? (fun u => u.email == email) with
  | none =>
    have hno : ∀ u ∈ users, u.email ≠ email := by
      intro u hu hue
      have h2 := List.find?_eq_none.mp hfe u hu
      simp [hue] at h2
    constructor
    · simp only [login_view, he, hp, hfe, Bool.or_self, Bool.false_eq_true, if_false]
      constructor
      · intro hs
        cases hs
      · rintro ⟨u, hu, hue, _, _⟩
        exact absurd hue (hno u hu)
    · intro u hu hue _
      exact absurd hue (hno u hu)
  | some w =>
    have hw : w ∈ users := List.mem_of_find?_eq_some hfe
    have hwe : w.email = email := by simpa using List.find?_some hfe
    have huniq : ∀ u ∈ users, u.email = email → u = w := fun u hu hue =>
      List.inj_on_of_nodup_map hemails hu hw (by rw [hue, hwe])
    have hauth : authenticate users w.username password =
        if w.password == password then some w else none := by
      have hfw : users.find? (fun u => u.username == w.username) = some w := by
        apply find?_eq_of_mem_of_unique hw (by simp)
        intro x hx hpx
        exact List.inj_on_of_nodup_map hnames hx hw (by simpa using hpx)
      simp [authenticate, hfw]
    cases hv : w.is_email_verified with
    | false =>
      have hres : login_view users email password = ⟨401, none⟩ := by
        simp [login_view, he, hp, hfe, hv]
      rw [hres]
      constructor
      · constructor
        · intro hs
          cases hs
        · rintro ⟨u, hu, hue, huv, _⟩
          rw [huniq u hu hue] at huv
          rw [hv] at huv
          cases huv
      · intro _ _ _ _
        rfl
    | true =>
      by_cases hpm : w.password = password
      · have hres : login_view users email password = ⟨200, some w.id⟩ := by
          simp [login_view, he, hp, hfe, hv, hauth, hpm]
        rw [hres]
        constructor
        · constructor
          · intro _
            exact ⟨w, hw, hwe, hv, hpm⟩
          · intro _
            rfl
        · intro u hu hue huv
          rw [huniq u hu hue] at huv
          rw [hv] at huv
          cases huv
      · have hres : login_view users email password = ⟨401, none⟩ := by
          simp [login_view, he, hp, hfe, hv, hauth, hpm]
        rw [hres]
        constructor
        · constructor
          · intro hs
            cases hs
          · rintro ⟨u, hu, hue, _, hup⟩
            rw [huniq u hu hue] at hup
            exact absurd hup hpm
        · intro _ _ _ _
          rfl



/-- Witness for C7: a concrete existing user gets the Google id linked and the
token pair keyed to them. -/
theorem google_auth_finds_or_creates_witness :
    (⟨1, 1, "bob".data, "bob@x.com".data, "bob".data, [], [], true⟩ :
      AuthResponse).token_user = 1 :=
  ((google_auth_finds_or_creates
      [⟨1, "bob".data, "bob@x.com".data, [], [], "pw".data, false, none⟩]
      [⟨1, "bob".data, "bob@x.com".data, [], [], "pw".data, true, some "g9".data⟩]
      ⟨1, 1, "bob".data, "bob@x.com".data, "bob".data, [], [], true⟩
      "bob@x.com".data "Ann".data "Smith".data "g9".data
      (by decide) (by decide)).1
    ⟨1, "bob".data, "bob@x.com".data, [], [], "pw".data, false, none⟩
    (by decide) rfl).1

/-- Witness for the amended C10 at a concrete creating request. -/
theorem google_auth_new_user_blank_names_witness :
    (⟨1, "dave".data, "dave@x.com".data, [], [], "random-password".data, true,
        some "g2".data⟩ : User).first_name = [] ∧
    (⟨1, "dave".data, "dave@x.com".data, [], [], "random-password".data, true,
        some "g2".data⟩ : User).last_name = [] ∧
    (⟨1, 1, "dave".data, "dave@x.com".data, "dave".data, [], [], true⟩ :
      AuthResponse).first_name = [] ∧
    (⟨1, 1, "dave".data, "dave@x.com".data, "dave".data, [], [], true⟩ :
      AuthResponse).last_name = [] ∧
    (⟨1, 1, "dave".data, "dave@x.com".data, "dave".data, [], [], true⟩ :
      AuthResponse).name = local_part "dave@x.com".data :=
  google_auth_new_user_blank_names []
    [⟨1, "dave".data, "dave@x.com".data, [], [], "random-password".data, true,
      some "g2".data⟩]
    ⟨1, 1, "dave".data, "dave@x.com".data, "dave".data, [], [], true⟩
    "dave@x.com".data "Ann".data "Smith".data "g2".data
    (by decide) (by decide) rfl
    ⟨1, "dave".data, "dave@x.com".data, [], [], "random-password".data, true,
      some "g2".data⟩ rfl

/-- Witness for C8: a concrete verified user with the right password obtains
tokens. -/
theorem login_view_tokens_iff_witness :
    (login_view [⟨1, "carol".data, "c@x.com".data, [], [], "pw".data, true, none⟩]
      "c@x.com".data "pw".data).token_user.isSome = true :=
  (login_view_tokens_iff
      [⟨1, "carol".data, "c@x.com".data, [], [], "pw".data, true, none⟩]
      "c@x.com".data "pw".data
      (by decide) (by decide) (by decide) (by decide)).1.mpr
    ⟨⟨1, "carol".data, "c@x.com".data, [], [], "pw".data, true, none⟩,
      by decide, rfl, rfl, rfl⟩

end Account
